import Mathlib

/-!
Verification of the O957-Helpers repository.

Part 1 embeds `should_auto_merge` from `scripts/auto_merge_bot_prs.py`:
the pull-request eligibility evaluator.

Python objects are rendered as plain structures.  A Python optional string
(`None` or `str`) becomes `Option String`; the tri-state mergeable flag
(`True` / `False` / `None`) becomes `Option Bool`.  The evaluator indexes
`pr.get_commits().reversed[0]`, which raises on an empty commit list; the
embedding therefore returns `Option (Bool × String)`, with `none` standing
for that uncaught exception.
-/

/-- One check run as consumed by the script: `check_run.status` and
`check_run.conclusion` (the latter is `None` while a run is in progress). -/
structure CheckRun where
  name : String
  status : String
  conclusion : Option String
deriving DecidableEq, Repr

/-- The combined legacy status of a commit: `combined_status.state` and
`combined_status.total_count`. -/
structure CombinedStatus where
  state : String
  total_count : Nat
deriving DecidableEq, Repr

/-- The slice of a commit the script reads: its combined status and its
check runs (in iteration order). -/
structure Commit where
  combinedStatus : CombinedStatus
  checkRuns : List CheckRun
deriving DecidableEq, Repr

/-- The slice of a pull request the script reads.  `commits` is
`pr.get_commits()` in order, so the head commit is the last element.
`mergeError` models the behaviour of the later `pr.merge()` call:
`none` if it succeeds, `some e` if it raises `GithubException e`. -/
structure PullRequest where
  authorLogin : String
  mergeable : Option Bool
  commits : List Commit
  number : Nat
  title : String
  mergeError : Option String
deriving DecidableEq, Repr

/-- The author allow-list of `should_auto_merge`. -/
def allowedBots : List String :=
  ["pre-commit-ci[bot]", "dependabot[bot]", "dependabot", "dependabot-preview[bot]"]

/-- The allowed check-run conclusions `["success", "neutral", "skipped"]`,
as options since `check_run.conclusion` can be `None`. -/
def allowedConclusions : List (Option String) :=
  [some "success", some "neutral", some "skipped"]

/-- Python `str.lower()`, character by character (author logins are
ASCII, where `str.lower()` lowers each character independently). -/
def strLower (s : String) : String := String.mk (s.data.map Char.toLower)

/-- Rendering of a Python optional string by an f-string: `None` prints as
`"None"`. -/
def pyStr : Option String → String
  | none => "None"
  | some s => s

/-- The `for check_run in check_runs` loop body of `should_auto_merge`:
returns the first early `return` it hits, `none` if the loop finishes. -/
def checkRunsScan : List CheckRun → Option (Bool × String)
  | [] => none
  | cr :: rest =>
    if cr.status ≠ "completed" then
      some (false, "Check run \x27" ++ cr.name ++ "\x27 not completed: " ++ cr.status ++ ".")
    else if cr.conclusion ∉ allowedConclusions then
      some (false, "Check run \x27" ++ cr.name ++ "\x27 failed: " ++ pyStr cr.conclusion ++ ".")
    else checkRunsScan rest

/-- `should_auto_merge(pr)` from `scripts/auto_merge_bot_prs.py`.
`none` models the uncaught `IndexError` of `pr.get_commits().reversed[0]`
on an empty commit list; every code path of the Python function itself
returns a `(bool, str)` pair.  `if not pr.mergeable` is true exactly when
the tri-state flag is not `True`. -/
def should_auto_merge (pr : PullRequest) : Option (Bool × String) :=
  let author := strLower pr.authorLogin
  if author ∉ allowedBots then
    some (false, "Author " ++ author ++ " is not a bot we auto-merge.")
  else if pr.mergeable ≠ some true then
    some (false, "PR has merge conflicts.")
  else
    match pr.commits.reverse.head? with
    | none => none
    | some commit =>
      let has_statuses := commit.combinedStatus.total_count > 0
      let has_check_runs := commit.checkRuns.length > 0
      if ¬ has_statuses ∧ ¬ has_check_runs then
        some (true, "No CI checks configured, proceeding.")
      else if has_statuses ∧ commit.combinedStatus.state ≠ "success" then
        some (false, "Status checks: " ++ commit.combinedStatus.state ++ ".")
      else if has_check_runs then
        match checkRunsScan commit.checkRuns with
        | some r => some r
        | none => some (true, "All checks passed.")
      else
        some (true, "All checks passed.")

/-!
Part 2 embeds the repository sweep: `auto_merge_repo_prs`,
`load_repositories_config` and `main`.

Effects are made explicit.  A repository's open-PR listing is a list of
events: each event is either a pull request yielded by the iteration or a
`GithubException` raised while listing or evaluating PRs, which aborts the
iteration (the `try` in `auto_merge_repo_prs` catches it and returns the
results collected so far).  `pr.merge()` raising is recorded on the
`PullRequest` itself (`mergeError`).  The only uncaught exception is the
`IndexError` modelled by `should_auto_merge` returning `none`; the sweep
functions propagate it as `none`.
-/

/-- One outcome dictionary appended to `results` in `auto_merge_repo_prs`. -/
structure Outcome where
  repo : String
  pr : Nat
  status : String
  message : String
deriving DecidableEq, Repr

/-- One step of iterating a repository's open pull requests: a PR, or a
`GithubException` (with its message) raised by the iteration or by the
API calls inside `should_auto_merge`. -/
inductive SweepEvent where
  | pr (p : PullRequest)
  | apiError (msg : String)
deriving DecidableEq, Repr

/-- The slice of a repository the script reads: `full_name`, `archived`,
and its open-PR iteration. -/
structure Repo where
  full_name : String
  archived : Bool
  pulls : List SweepEvent
deriving DecidableEq, Repr

/-- Result of `g.get_repo(full_repo_name)`: the repository, or a
`GithubException`. -/
inductive RepoResult where
  | err (msg : String)
  | ok (r : Repo)
deriving DecidableEq, Repr

/-- The configuration file as `load_repositories_config` can observe it:
absent, present but not JSON-decodable, or decoded, in which case the
`"repositories"` key may be absent. -/
inductive ConfigFile where
  | missing
  | malformed
  | valid (repositories : Option (List String))
deriving DecidableEq, Repr

/-- Everything `main` reads from the outside world: the two environment
variables, the configuration file, and the hosting API (`fetch` is
`g.get_repo`). -/
structure World where
  token : Option String
  username : Option String
  config : ConfigFile
  fetch : String → RepoResult

/-- The outcome dictionary the merge attempt on an eligible PR appends:
the `"merged"` record if `pr.merge()` succeeds, the `"failed"` record if
it raises `GithubException`. -/
def prOutcome (repoName : String) (p : PullRequest) : Outcome :=
  match p.mergeError with
  | none =>
    { repo := repoName, pr := p.number, status := "merged",
      message := "Successfully merged PR #" ++ toString p.number ++ ": " ++ p.title ++ "." }
  | some e =>
    { repo := repoName, pr := p.number, status := "failed",
      message := "Failed to merge: " ++ e ++ "." }

/-- The `for pr in prs` loop of `auto_merge_repo_prs`.  An `apiError`
event is the `GithubException` caught by the surrounding `try`: the
results collected so far are returned.  `none` propagates the uncaught
exception of `should_auto_merge`. -/
def processEvents (repoName : String) : List SweepEvent → Option (List Outcome)
  | [] => some []
  | SweepEvent.apiError _ :: _ => some []
  | SweepEvent.pr p :: rest =>
    match should_auto_merge p with
    | none => none
    | some (should_merge, _reason) =>
      if should_merge then
        match processEvents repoName rest with
        | none => none
        | some os => some (prOutcome repoName p :: os)
      else
        processEvents repoName rest

/-- `auto_merge_repo_prs(repo)`. -/
def auto_merge_repo_prs (repo : Repo) : Option (List Outcome) :=
  processEvents repo.full_name repo.pulls

/-- `load_repositories_config()`: a missing file and an undecodable file
both yield `[]`; otherwise `config.get("repositories", [])`. -/
def load_repositories_config : ConfigFile → List String
  | ConfigFile.missing => []
  | ConfigFile.malformed => []
  | ConfigFile.valid none => []
  | ConfigFile.valid (some rs) => rs

/-- The repo-name resolution in `main`: a bare name is combined with the
username (an f-string renders a missing `GITHUB_USERNAME` as `"None"`).
Python's `"/" in repo_name` is membership of the single character. -/
def resolveFullName (username : Option String) (name : String) : String :=
  if name.data.contains '/' then name else pyStr username ++ "/" ++ name

/-- The `for repo_name in repo_names` loop of `main`: a `GithubException`
from `g.get_repo` is caught and the loop continues; archived repositories
are skipped; otherwise the repository's outcomes are appended to
`all_results`. -/
def sweepNames (w : World) : List String → Option (List Outcome)
  | [] => some []
  | name :: rest =>
    match w.fetch (resolveFullName w.username name) with
    | RepoResult.err _ => sweepNames w rest
    | RepoResult.ok repo =>
      if repo.archived then sweepNames w rest
      else
        match auto_merge_repo_prs repo, sweepNames w rest with
        | some os, some os2 => some (os ++ os2)
        | _, _ => none

/-- All outcomes accumulated by one run of `main`. -/
def sweepAll (w : World) : Option (List Outcome) :=
  sweepNames w (load_repositories_config w.config)

/-- Python truthiness test `if not token` on an optional string: true for
`None` and for the empty string. -/
def pyFalsyStr : Option String → Bool
  | none => true
  | some s => s == ""

/-- `merged_count` of the summary in `main`. -/
def merged_count (rs : List Outcome) : Nat :=
  (rs.filter (fun r => r.status == "merged")).length

/-- `failed_count` of the summary in `main`. -/
def failed_count (rs : List Outcome) : Nat :=
  (rs.filter (fun r => r.status == "failed")).length

/-- `main()`: the returned exit code, `none` for the uncaught exception
modelled by `should_auto_merge`.  The summary counts are printed only and
do not influence the return value. -/
def mainExit (w : World) : Option Nat :=
  if pyFalsyStr w.token then some 1
  else if (load_repositories_config w.config).isEmpty then some 1
  else
    match sweepAll w with
    | none => none
    | some _ => some 0

/-!
Part 3 embeds `format_ebay_item_strs` from `helpers/process_ebay_items.py`
together with the CPython `textwrap.wrap` it calls (default `TextWrapper`
settings).  The Python function returns the wrapped list when the input
length is a multiple of `wrap_length` and falls off the end (returning
`None`) otherwise, despite its `-> str` annotation; hence the
`Option (List String)` result.

`textwrap.wrap` is CPython library code, not part of this repository, so
it is modelled rather than transcribed.  Modelled from CPython 3.11
`textwrap.py`, restricted to the inputs this file reasons about:
whitespace-free text (so `_munge_whitespace` is the identity and no
whitespace chunks arise) containing no two consecutive hyphens (so the
em-dash alternatives of `wordsep_re` never match), with `width ≥ 1`
(Python raises on `width <= 0`).  Within that domain the model follows
`_split` (the lazy `wordsep_re` scan with its hyphenated-word rule) and
`_wrap_chunks` / `_handle_long_word` step by step.
-/

/-- The characters of `textwrap._whitespace`, which is also what
`str.strip()` removes on the ASCII inputs modelled here. -/
def isPySpace (c : Char) : Bool :=
  c == ' ' || c == '\t' || c == '\n' || c == '\x0b' || c == '\x0c' || c == '\r'

/-- The `letter` class `[^\d\W]` of `wordsep_re`, over ASCII: a letter or
an underscore (a word character that is not a digit). -/
def isLetterCh (c : Char) : Bool :=
  c.isAlpha || c == '_'

/-- Lookbehind of the hyphenated-word rule, `(?<=lt{2}-)|(?<=lt-lt-)`,
applied to the reversed list of characters before the hyphen just
consumed: two letters, or letter-hyphen-letter. -/
def lookbehindHyphen : List Char → Bool
  | a :: b :: rest =>
    isLetterCh a &&
      (isLetterCh b ||
        (b == '-' && (match rest with | e :: _ => isLetterCh e | [] => false)))
  | _ => false

/-- Lookahead of the hyphenated-word rule, `(?=lt-?lt)`, applied to the
characters after the hyphen just consumed: letter, optional hyphen,
letter. -/
def lookaheadHyphen : List Char → Bool
  | a :: b :: rest =>
    isLetterCh a &&
      (isLetterCh b ||
        (b == '-' && (match rest with | e :: _ => isLetterCh e | [] => false)))
  | _ => false

/-- The lazy scan of `wordsep_re` on whitespace-free text: after at least
one character (`nws+?`), a word ends at `\Z`, or by consuming a `-` whose
lookbehind and lookahead both match; the scan then restarts on the rest.
`consumedRev` is the reversed portion of the current word. -/
def splitGo (consumedRev : List Char) : List Char → List (List Char)
  | [] => [consumedRev.reverse]
  | c :: rest2 =>
    if c == '-' && lookbehindHyphen consumedRev && lookaheadHyphen rest2 then
      match rest2 with
      | [] => [(c :: consumedRev).reverse]
      | d :: rest3 => (c :: consumedRev).reverse :: splitGo [d] rest3
    else
      splitGo (c :: consumedRev) rest2

/-- `TextWrapper._split` on whitespace-free text (empty chunks are
filtered in Python; none arise here). -/
def pySplit : List Char → List (List Char)
  | [] => []
  | c :: rest => splitGo [c] rest

/-- `chunk.rfind('-', 0, bound)`: index of the last hyphen among the
first `bound` characters, if any. -/
def lastHyphenBefore : List Char → Nat → Option Nat
  | [], _ => none
  | _, 0 => none
  | c :: rest, b + 1 =>
    match lastHyphenBefore rest b with
    | some i => some (i + 1)
    | none => if c == '-' then some 0 else none

/-- The inner `while chunks` of `_wrap_chunks`: greedily move whole
chunks onto the current line while they fit.  Returns the line so far,
the remaining chunks, and the line length. -/
def fillLine (width cur_len : Nat) : List (List Char) → List (List Char) × List (List Char) × Nat
  | [] => ([], [], cur_len)
  | ch :: rest =>
    if cur_len + ch.length ≤ width then
      let t := fillLine width (cur_len + ch.length) rest
      (ch :: t.1, t.2.1, t.2.2)
    else
      ([], ch :: rest, cur_len)

/-- `_handle_long_word` with `break_long_words` and `break_on_hyphens`
(both default `True`): break the chunk at `space_left`, or just after its
last hyphen before `space_left` when that hyphen is preceded by a
non-hyphen.  Returns the extended line and the chunk's remainder. -/
def handleLongWord (width cur_len : Nat) (cur_line : List (List Char)) (chunk : List Char) :
    List (List Char) × List Char :=
  let space_left := if width < 1 then 1 else width - cur_len
  let endN :=
    if space_left < chunk.length then
      match lastHyphenBefore chunk space_left with
      | some h =>
        if 0 < h && (chunk.take h).any (fun c => c != '-') then h + 1 else space_left
      | none => space_left
    else space_left
  (cur_line ++ [chunk.take endN], chunk.drop endN)

/-- The outer `while chunks` of `_wrap_chunks` (defaults: no indents, no
`max_lines`, `drop_whitespace`), one line per fuel step: drop a leading
all-whitespace chunk once a line exists, fill greedily, break a too-long
next chunk, drop a trailing all-whitespace piece, and emit the line if
non-empty.  `hasLines` tracks Python's `lines` being non-empty. -/
def wrapFill (width : Nat) : Nat → List (List Char) → Bool → List (List Char)
  | 0, _, _ => []
  | fuel + 1, chunks0, hasLines =>
    match chunks0 with
    | [] => []
    | ch0 :: rest0 =>
      let chunks1 := if hasLines && ch0.all isPySpace then rest0 else ch0 :: rest0
      let filled := fillLine width 0 chunks1
      let step3 : List (List Char) × List (List Char) :=
        match filled.2.1 with
        | [] => (filled.1, [])
        | ch :: rest2 =>
          if width < ch.length then
            let hw := handleLongWord width filled.2.2 filled.1 ch
            (hw.1, hw.2 :: rest2)
          else
            (filled.1, ch :: rest2)
      let cur_line2 :=
        match step3.1.getLast? with
        | some lastPiece => if lastPiece.all isPySpace then step3.1.dropLast else step3.1
        | none => step3.1
      match cur_line2 with
      | [] => wrapFill width fuel step3.2 hasLines
      | _ => cur_line2.flatten :: wrapFill width fuel step3.2 true

/-- Fuel bound for `wrapFill`: every emitted line consumes at least one
character or one chunk. -/
def chunksMeasure (chs : List (List Char)) : Nat :=
  chs.foldr (fun c a => c.length + 1 + a) 0

/-- `textwrap.wrap(text, width)` on the modelled domain. -/
def pyWrap (s : String) (width : Nat) : List String :=
  let chunks := pySplit s.data
  (wrapFill width (chunksMeasure chunks + 1) chunks false).map String.mk

/-- `format_ebay_item_strs(ebay_items_str, wrap_length)` from
`helpers/process_ebay_items.py`: the wrapped list when the length is a
multiple of `wrap_length`, Python's implicit `None` otherwise. -/
def format_ebay_item_strs (ebay_items_str : String) (wrap_length : Nat) : Option (List String) :=
  if ebay_items_str.length % wrap_length == 0 then
    some (pyWrap ebay_items_str wrap_length)
  else
    none

/-- Plain chunking into consecutive `n`-character pieces, the behaviour
the specification describes for the formatter. -/
def chunkList (n : Nat) (cs : List Char) : List (List Char) :=
  if _hcond : cs.isEmpty || n == 0 then []
  else cs.take n :: chunkList n (cs.drop n)
termination_by cs.length
decreasing_by
  simp only [Bool.or_eq_true, List.isEmpty_iff, beq_iff_eq, not_or] at _hcond
  simp only [List.length_drop]
  exact Nat.sub_lt (List.length_pos.mpr _hcond.1) (Nat.pos_of_ne_zero _hcond.2)

/-!
Concrete inputs used by witnesses and counterexamples.
-/

/-- A head commit with no legacy statuses and no check runs. -/
def commitNoCI : Commit :=
  { combinedStatus := { state := "", total_count := 0 }, checkRuns := [] }

/-- A bot PR whose mergeable flag is `False`. -/
def prMergeConflict : PullRequest :=
  { authorLogin := "Dependabot[bot]", mergeable := some false, commits := [commitNoCI],
    number := 1, title := "bump", mergeError := none }

/-- A non-allow-listed author with an otherwise perfect PR: mergeable,
one completed check run with conclusion success. -/
def prOutsider : PullRequest :=
  { authorLogin := "someone-else", mergeable := some true,
    commits := [{ combinedStatus := { state := "", total_count := 0 },
                  checkRuns := [{ name := "build", status := "completed",
                                  conclusion := some "success" }] }],
    number := 2, title := "feat", mergeError := none }

/-- An allow-listed, mergeable PR with no CI at all. -/
def prNoCI : PullRequest :=
  { authorLogin := "dependabot[bot]", mergeable := some true, commits := [commitNoCI],
    number := 3, title := "bump", mergeError := none }

/-- A head commit with a pending combined status and an incomplete check
run. -/
def cPending : Commit :=
  { combinedStatus := { state := "pending", total_count := 1 },
    checkRuns := [{ name := "build", status := "queued", conclusion := none }] }

/-- An allow-listed, mergeable PR with a pending combined status and an
incomplete check run. -/
def prBadStatus : PullRequest :=
  { authorLogin := "dependabot", mergeable := some true, commits := [cPending],
    number := 4, title := "bump", mergeError := none }

/-- An allow-listed, mergeable PR with a failed completed run listed
before an incomplete run. -/
def prMixedRuns : PullRequest :=
  { authorLogin := "dependabot", mergeable := some true,
    commits := [{ combinedStatus := { state := "", total_count := 0 },
                  checkRuns := [{ name := "a", status := "completed",
                                  conclusion := some "failure" },
                                { name := "b", status := "queued",
                                  conclusion := none }] }],
    number := 5, title := "bump", mergeError := none }

/-- A head commit with a successful combined status and one incomplete
check run. -/
def cQueued : Commit :=
  { combinedStatus := { state := "success", total_count := 2 },
    checkRuns := [{ name := "lint", status := "in_progress", conclusion := none }] }

/-- An allow-listed, mergeable PR with a successful combined status and
one incomplete check run. -/
def prOneQueuedRun : PullRequest :=
  { authorLogin := "pre-commit-ci[bot]", mergeable := some true, commits := [cQueued],
    number := 6, title := "style", mergeError := none }

/-- A world whose only configured repository cannot be fetched. -/
def wC6 : World :=
  { token := some "tok", username := some "me",
    config := ConfigFile.valid (some ["me/repo"]),
    fetch := fun _ => RepoResult.err "404" }

/-- An eligible PR whose merge call raises `GithubException "boom"`. -/
def prMergeBoom : PullRequest :=
  { authorLogin := "dependabot", mergeable := some true, commits := [commitNoCI],
    number := 7, title := "dep", mergeError := some "boom" }

/-- A world whose repository fetches all fail. -/
def wC7 : World :=
  { token := some "tok", username := some "u",
    config := ConfigFile.valid (some ["x/y"]),
    fetch := fun _ => RepoResult.err "m" }

/-- Three eligible bot PRs and one ineligible PR, spread over two
repositories, every merge call succeeding. -/
def prEliA : PullRequest :=
  { authorLogin := "dependabot[bot]", mergeable := some true, commits := [commitNoCI],
    number := 1, title := "a1", mergeError := none }

/-- Second eligible PR of the summary scenario. -/
def prEliB : PullRequest :=
  { authorLogin := "pre-commit-ci[bot]", mergeable := some true, commits := [commitNoCI],
    number := 2, title := "a2", mergeError := none }

/-- Third eligible PR of the summary scenario. -/
def prEliC : PullRequest :=
  { authorLogin := "dependabot", mergeable := some true, commits := [commitNoCI],
    number := 3, title := "b3", mergeError := none }

/-- The ineligible PR of the summary scenario. -/
def prInelD : PullRequest :=
  { authorLogin := "someone", mergeable := some true, commits := [commitNoCI],
    number := 4, title := "b4", mergeError := none }

/-- First repository of the summary scenario. -/
def repoA : Repo := { full_name := "u/a", archived := false,
                      pulls := [SweepEvent.pr prEliA, SweepEvent.pr prEliB] }

/-- Second repository of the summary scenario. -/
def repoB : Repo := { full_name := "u/b", archived := false,
                      pulls := [SweepEvent.pr prEliC, SweepEvent.pr prInelD] }

/-- The world of the summary scenario: one bare repo name and one
qualified one. -/
def wC8 : World :=
  { token := some "t", username := some "u",
    config := ConfigFile.valid (some ["a", "u/b"]),
    fetch := fun n =>
      if n == "u/a" then RepoResult.ok repoA
      else if n == "u/b" then RepoResult.ok repoB
      else RepoResult.err "404" }

/-- The outcomes of the summary scenario. -/
def osC8 : List Outcome :=
  [{ repo := "u/a", pr := 1, status := "merged", message := "Successfully merged PR #1: a1." },
   { repo := "u/a", pr := 2, status := "merged", message := "Successfully merged PR #2: a2." },
   { repo := "u/b", pr := 3, status := "merged", message := "Successfully merged PR #3: b3." }]

/-!
Theorems for the claims about the eligibility evaluator.
-/

/-- C1: a PR whose mergeable flag is not `True` (false or unknown) is
never auto-merged, whoever the author is and whatever the CI state; when
the author is allow-listed the reason is the merge-conflicts message. -/
theorem mergeable_not_true_rejects (pr : PullRequest)
    (h : pr.mergeable ≠ some true) :
    (should_auto_merge pr).map Prod.fst = some false ∧
    (strLower pr.authorLogin ∈ allowedBots →
      should_auto_merge pr = some (false, "PR has merge conflicts.")) := by
  by_cases ha : strLower pr.authorLogin ∈ allowedBots
  · simp [should_auto_merge, ha, h]
  · simp [should_auto_merge, ha]

/-- Witness for C1 at a concrete PR with `mergeable = False`. -/
theorem mergeable_not_true_rejects_witness :
    (should_auto_merge prMergeConflict).map Prod.fst = some false ∧
    (strLower prMergeConflict.authorLogin ∈ allowedBots →
      should_auto_merge prMergeConflict = some (false, "PR has merge conflicts.")) :=
  mergeable_not_true_rejects prMergeConflict (by decide)

/-- C2: a PR whose lowercased author login is outside the allow-list is
rejected with the author message, and the result is the same whatever
the mergeable flag and the commit data are (the author rule is applied
first, so those are never consulted). -/
theorem outside_author_rejects (pr : PullRequest)
    (h : strLower pr.authorLogin ∉ allowedBots) :
    should_auto_merge pr =
      some (false, "Author " ++ strLower pr.authorLogin ++ " is not a bot we auto-merge.") ∧
    (∀ (m : Option Bool) (cs : List Commit),
      should_auto_merge { pr with mergeable := m, commits := cs } = should_auto_merge pr) := by
  constructor
  · simp [should_auto_merge, h]
  · intro m cs
    simp [should_auto_merge, h]

/-- Witness for C2 at a concrete non-bot author. -/
theorem outside_author_rejects_witness :
    should_auto_merge prOutsider =
      some (false, "Author " ++ strLower prOutsider.authorLogin ++ " is not a bot we auto-merge.") ∧
    (∀ (m : Option Bool) (cs : List Commit),
      should_auto_merge { prOutsider with mergeable := m, commits := cs } =
        should_auto_merge prOutsider) :=
  outside_author_rejects prOutsider (by decide)

/-- C3: an allow-listed, mergeable PR whose head commit has no legacy
status contexts and no check runs is accepted with the no-CI message. -/
theorem no_ci_accepts (pr : PullRequest) (c : Commit)
    (ha : strLower pr.authorLogin ∈ allowedBots)
    (hm : pr.mergeable = some true)
    (hc : pr.commits.reverse.head? = some c)
    (hs : c.combinedStatus.total_count = 0)
    (hr : c.checkRuns = []) :
    should_auto_merge pr = some (true, "No CI checks configured, proceeding.") := by
  simp [should_auto_merge, ha, hm, hc, hs, hr]

/-- Witness for C3 at a concrete dependabot PR without CI. -/
theorem no_ci_accepts_witness :
    should_auto_merge prNoCI = some (true, "No CI checks configured, proceeding.") :=
  no_ci_accepts prNoCI commitNoCI (by decide) (by decide) (by decide) (by decide) (by decide)

/-- C4: a PR whose head commit has at least one legacy status context
with a combined state other than `"success"` is never auto-merged; when
the author and mergeable checks pass, the reason names that state. -/
theorem bad_combined_status_rejects (pr : PullRequest) (c : Commit)
    (hc : pr.commits.reverse.head? = some c)
    (hs : 0 < c.combinedStatus.total_count)
    (hst : c.combinedStatus.state ≠ "success") :
    (should_auto_merge pr).map Prod.fst = some false ∧
    (strLower pr.authorLogin ∈ allowedBots → pr.mergeable = some true →
      should_auto_merge pr =
        some (false, "Status checks: " ++ c.combinedStatus.state ++ ".")) := by
  by_cases ha : strLower pr.authorLogin ∈ allowedBots
  · by_cases hm : pr.mergeable = some true
    · simp [should_auto_merge, ha, hm, hc, hs, hst]
    · simp [should_auto_merge, ha, hm]
  · simp [should_auto_merge, ha]

/-- Witness for C4 at a concrete PR with a pending combined status. -/
theorem bad_combined_status_rejects_witness :
    (should_auto_merge prBadStatus).map Prod.fst = some false ∧
    (strLower prBadStatus.authorLogin ∈ allowedBots → prBadStatus.mergeable = some true →
      should_auto_merge prBadStatus =
        some (false, "Status checks: " ++ cPending.combinedStatus.state ++ ".")) :=
  bad_combined_status_rejects prBadStatus cPending (by decide) (by decide) (by decide)

/-- If every check run is completed with an allowed conclusion, the loop
of `should_auto_merge` falls through. -/
lemma checkRunsScan_none_of_all_ok (l : List CheckRun)
    (h : ∀ cr ∈ l, cr.status = "completed" ∧ cr.conclusion ∈ allowedConclusions) :
    checkRunsScan l = none := by
  induction l with
  | nil => rfl
  | cons cr rest ih =>
    have hcr := h cr (List.mem_cons_self _ _)
    simp only [checkRunsScan, hcr.1, ne_eq, not_true_eq_false, if_false]
    rw [if_neg (by simp [hcr.2])]
    exact ih fun x hx => h x (List.mem_cons_of_mem _ hx)

/-- If some check run is incomplete or has a disallowed conclusion, the
loop of `should_auto_merge` stops at such a run and returns its
message. -/
lemma checkRunsScan_of_violation (l : List CheckRun)
    (h : ∃ cr ∈ l, cr.status ≠ "completed" ∨ cr.conclusion ∉ allowedConclusions) :
    ∃ cr ∈ l,
      (cr.status ≠ "completed" ∧
        checkRunsScan l =
          some (false, "Check run \x27" ++ cr.name ++ "\x27 not completed: " ++ cr.status ++ ".")) ∨
      (cr.conclusion ∉ allowedConclusions ∧
        checkRunsScan l =
          some (false, "Check run \x27" ++ cr.name ++ "\x27 failed: " ++ pyStr cr.conclusion ++ ".")) := by
  induction l with
  | nil => simp at h
  | cons cr rest ih =>
    by_cases hst : cr.status = "completed"
    · by_cases hcc : cr.conclusion ∈ allowedConclusions
      · have hscan : checkRunsScan (cr :: rest) = checkRunsScan rest := by
          simp [checkRunsScan, hst, hcc]
        have hrest : ∃ x ∈ rest, x.status ≠ "completed" ∨ x.conclusion ∉ allowedConclusions := by
          rcases h with ⟨x, hx, hv⟩
          rcases List.mem_cons.mp hx with rfl | hx2
          · rcases hv with hv | hv
            · exact absurd hst hv
            · exact absurd hcc hv
          · exact ⟨x, hx2, hv⟩
        rcases ih hrest with ⟨x, hx, hcase⟩
        exact ⟨x, List.mem_cons_of_mem _ hx, by rw [hscan]; exact hcase⟩
      · exact ⟨cr, List.mem_cons_self _ _,
          Or.inr ⟨hcc, by simp [checkRunsScan, hst, hcc]⟩⟩
    · exact ⟨cr, List.mem_cons_self _ _, Or.inl ⟨hst, by simp [checkRunsScan, hst]⟩⟩

/-- C5 (amended): for an allow-listed, mergeable PR whose head commit has
at least one check run and whose combined status is `"success"` whenever
status contexts exist: any incomplete or badly-concluded check run makes
the evaluator reject, with a reason naming such a run (its status when
incomplete, its conclusion otherwise); and when every run is completed
with conclusion in {success, neutral, skipped}, the evaluator accepts
with `"All checks passed."`. -/
theorem check_runs_gate (pr : PullRequest) (c : Commit)
    (ha : strLower pr.authorLogin ∈ allowedBots)
    (hm : pr.mergeable = some true)
    (hc : pr.commits.reverse.head? = some c)
    (hst : 0 < c.combinedStatus.total_count → c.combinedStatus.state = "success")
    (hne : c.checkRuns ≠ []) :
    ((∃ cr ∈ c.checkRuns, cr.status ≠ "completed" ∨ cr.conclusion ∉ allowedConclusions) →
      ∃ cr ∈ c.checkRuns,
        (cr.status ≠ "completed" ∧
          should_auto_merge pr =
            some (false, "Check run \x27" ++ cr.name ++ "\x27 not completed: " ++ cr.status ++ ".")) ∨
        (cr.conclusion ∉ allowedConclusions ∧
          should_auto_merge pr =
            some (false, "Check run \x27" ++ cr.name ++ "\x27 failed: " ++ pyStr cr.conclusion ++ "."))) ∧
    ((∀ cr ∈ c.checkRuns, cr.status = "completed" ∧ cr.conclusion ∈ allowedConclusions) →
      should_auto_merge pr = some (true, "All checks passed.")) := by
  have hlen : 0 < c.checkRuns.length := List.length_pos.mpr hne
  have key : should_auto_merge pr =
      (match checkRunsScan c.checkRuns with
       | some r => some r
       | none => some (true, "All checks passed.")) := by
    by_cases h0 : 0 < c.combinedStatus.total_count
    · have hsucc := hst h0
      simp [should_auto_merge, ha, hm, hc, hlen, h0, hsucc]
    · simp [should_auto_merge, ha, hm, hc, hlen, h0]
  constructor
  · intro hviol
    rcases checkRunsScan_of_violation _ hviol with ⟨cr, hmem, hcase⟩
    refine ⟨cr, hmem, ?_⟩
    rcases hcase with ⟨hb, heq⟩ | ⟨hb, heq⟩
    · exact Or.inl ⟨hb, by rw [key, heq]⟩
    · exact Or.inr ⟨hb, by rw [key, heq]⟩
  · intro hok
    rw [key, checkRunsScan_none_of_all_ok _ hok]

/-- C5 is false as stated: `prOutsider` has one check run, completed with
conclusion success and no status contexts, yet the evaluator rejects it
(the author rule fires first); `prBadStatus` has an incomplete check run
but the reason names the combined status, not that run; `prMixedRuns`
has an incomplete run `b` but the reason names run `a` and its
conclusion. -/
theorem check_runs_gate_counterexample :
    (∀ cr ∈ prOutsider.commits, ∀ r ∈ cr.checkRuns,
      r.status = "completed" ∧ r.conclusion ∈ allowedConclusions) ∧
    should_auto_merge prOutsider =
      some (false, "Author someone-else is not a bot we auto-merge.") ∧
    should_auto_merge prBadStatus = some (false, "Status checks: pending.") ∧
    should_auto_merge prMixedRuns =
      some (false, "Check run \x27a\x27 failed: failure.") := by decide

/-- Witness for C5 (amended) at a concrete PR with one incomplete run. -/
theorem check_runs_gate_witness :
    ((∃ cr ∈ cQueued.checkRuns, cr.status ≠ "completed" ∨ cr.conclusion ∉ allowedConclusions) →
      ∃ cr ∈ cQueued.checkRuns,
        (cr.status ≠ "completed" ∧
          should_auto_merge prOneQueuedRun =
            some (false, "Check run \x27" ++ cr.name ++ "\x27 not completed: " ++ cr.status ++ ".")) ∨
        (cr.conclusion ∉ allowedConclusions ∧
          should_auto_merge prOneQueuedRun =
            some (false, "Check run \x27" ++ cr.name ++ "\x27 failed: " ++ pyStr cr.conclusion ++ "."))) ∧
    ((∀ cr ∈ cQueued.checkRuns, cr.status = "completed" ∧ cr.conclusion ∈ allowedConclusions) →
      should_auto_merge prOneQueuedRun = some (true, "All checks passed.")) :=
  check_runs_gate prOneQueuedRun cQueued (by decide) (by decide) (by decide)
    (by decide) (by decide)

/-!
Theorems for the claims about `main` and the sweep.
-/

/-- Python's `if not token` succeeds exactly on a missing or empty
token. -/
lemma pyFalsyStr_iff (t : Option String) :
    pyFalsyStr t = true ↔ (t = none ∨ t = some "") := by
  cases t with
  | none => simp [pyFalsyStr]
  | some s => simp [pyFalsyStr]

/-- C6: `main` returns exit code 1 exactly when the token is unset or
empty or the resolved repository list is empty, and 0 otherwise
(whatever PRs were eligible and however the merge calls went); a missing
or undecodable configuration file counts as an empty repository list. -/
theorem main_exit_code (w : World) (hs : sweepAll w ≠ none) :
    mainExit w =
      some (if w.token = none ∨ w.token = some "" ∨ load_repositories_config w.config = []
            then 1 else 0) ∧
    load_repositories_config ConfigFile.missing = [] ∧
    load_repositories_config ConfigFile.malformed = [] := by
  refine ⟨?_, rfl, rfl⟩
  by_cases hf : pyFalsyStr w.token = true
  · rcases (pyFalsyStr_iff w.token).mp hf with h | h
    · rw [mainExit, if_pos hf, if_pos (Or.inl h)]
    · rw [mainExit, if_pos hf, if_pos (Or.inr (Or.inl h))]
  · have htok : ¬ (w.token = none ∨ w.token = some "") := fun h =>
      hf ((pyFalsyStr_iff w.token).mpr h)
    by_cases hL : (load_repositories_config w.config).isEmpty
    · rw [mainExit, if_neg hf, if_pos hL,
        if_pos (Or.inr (Or.inr (List.isEmpty_iff.mp hL)))]
    · obtain ⟨os, hos⟩ := Option.ne_none_iff_exists'.mp hs
      have hcond : ¬ (w.token = none ∨ w.token = some "" ∨
          load_repositories_config w.config = []) := by
        intro h
        rcases h with h | h | h
        · exact htok (Or.inl h)
        · exact htok (Or.inr h)
        · exact hL (List.isEmpty_iff.mpr h)
      rw [mainExit, if_neg hf, if_neg hL, hos, if_neg hcond]

/-- Witness for C6 at a concrete world whose repository fetch fails. -/
theorem main_exit_code_witness :
    mainExit wC6 =
      some (if wC6.token = none ∨ wC6.token = some "" ∨
              load_repositories_config wC6.config = []
            then 1 else 0) ∧
    load_repositories_config ConfigFile.missing = [] ∧
    load_repositories_config ConfigFile.malformed = [] :=
  main_exit_code wC6 (by decide)

/-- C7: a `GithubException` from a merge call is recorded as a failed
outcome for that PR; a `GithubException` while listing or evaluating PRs
ends that repository's loop but keeps the outcomes already collected;
and a `GithubException` from fetching one repository just skips it, the
sweep of the remaining repositories being unchanged. -/
theorem api_errors_contained :
    (∀ (rn : String) (p : PullRequest) (evs : List SweepEvent) (e r : String),
      should_auto_merge p = some (true, r) → p.mergeError = some e →
      processEvents rn (SweepEvent.pr p :: evs) =
        (processEvents rn evs).map
          (List.cons { repo := rn, pr := p.number, status := "failed",
                       message := "Failed to merge: " ++ e ++ "." })) ∧
    (∀ (rn : String) (evs : List SweepEvent) (m : String) (rest : List SweepEvent),
      processEvents rn (evs ++ SweepEvent.apiError m :: rest) = processEvents rn evs) ∧
    (∀ (w : World) (name : String) (rest : List String) (m : String),
      w.fetch (resolveFullName w.username name) = RepoResult.err m →
      sweepNames w (name :: rest) = sweepNames w rest) := by
  refine ⟨?_, ?_, ?_⟩
  · intro rn p evs e r hsm hme
    have hout : prOutcome rn p =
        { repo := rn, pr := p.number, status := "failed",
          message := "Failed to merge: " ++ e ++ "." } := by
      simp [prOutcome, hme]
    simp only [processEvents, hsm, if_true, hout]
    cases processEvents rn evs with
    | none => rfl
    | some os => rfl
  · intro rn evs m rest
    induction evs with
    | nil => rfl
    | cons ev evs ih =>
      cases ev with
      | apiError m2 => rfl
      | pr p =>
        have step : ∀ (l : List SweepEvent),
            processEvents rn (SweepEvent.pr p :: l) =
              match should_auto_merge p with
              | none => none
              | some (sm, _) =>
                if sm then
                  match processEvents rn l with
                  | none => none
                  | some os => some (prOutcome rn p :: os)
                else processEvents rn l := fun l => rfl
        rw [List.cons_append, step, step, ih]
  · intro w name rest m hf
    simp [sweepNames, hf]

/-- Witness for C7: the failed-merge record, the mid-listing error, and
the failed repository fetch, each at a concrete input. -/
theorem api_errors_contained_witness :
    (processEvents "o/r" [SweepEvent.pr prMergeBoom] =
      (processEvents "o/r" ([] : List SweepEvent)).map
        (List.cons { repo := "o/r", pr := prMergeBoom.number, status := "failed",
                     message := "Failed to merge: " ++ "boom" ++ "." })) ∧
    (processEvents "o/r" ([SweepEvent.pr prMergeBoom] ++ SweepEvent.apiError "down" :: []) =
      processEvents "o/r" [SweepEvent.pr prMergeBoom]) ∧
    (sweepNames wC7 ("x/y" :: []) = sweepNames wC7 []) :=
  ⟨api_errors_contained.1 "o/r" prMergeBoom [] "boom" "No CI checks configured, proceeding."
      (by decide) rfl,
   api_errors_contained.2.1 "o/r" [SweepEvent.pr prMergeBoom] "down" [],
   api_errors_contained.2.2 wC7 "x/y" [] "m" rfl⟩

/-- Every outcome appended by the merge attempt is merged or failed. -/
lemma prOutcome_status (rn : String) (p : PullRequest) :
    (prOutcome rn p).status = "merged" ∨ (prOutcome rn p).status = "failed" := by
  cases hp : p.mergeError with
  | none => exact Or.inl (by simp [prOutcome, hp])
  | some e => exact Or.inr (by simp [prOutcome, hp])

/-- Every outcome of one repository's loop is merged or failed. -/
lemma processEvents_status (rn : String) :
    ∀ (evs : List SweepEvent) (os : List Outcome),
      processEvents rn evs = some os →
      ∀ o ∈ os, o.status = "merged" ∨ o.status = "failed" := by
  intro evs
  induction evs with
  | nil =>
    intro os h o ho
    simp only [processEvents, Option.some.injEq] at h
    subst h
    simp at ho
  | cons ev evs ih =>
    cases ev with
    | apiError m =>
      intro os h o ho
      simp only [processEvents, Option.some.injEq] at h
      subst h
      simp at ho
    | pr p =>
      intro os h o ho
      simp only [processEvents] at h
      cases hsm : should_auto_merge p with
      | none => rw [hsm] at h; exact absurd h (by simp)
      | some v =>
        obtain ⟨sm, r⟩ := v
        rw [hsm] at h
        cases sm with
        | false => exact ih os (by simpa using h) o ho
        | true =>
          simp only [if_true] at h
          cases hpe : processEvents rn evs with
          | none => rw [hpe] at h; exact absurd h (by simp)
          | some os2 =>
            rw [hpe] at h
            simp only [Option.some.injEq] at h
            subst h
            rcases List.mem_cons.mp ho with rfl | ho2
            · exact prOutcome_status rn p
            · exact ih os2 hpe o ho2

/-- Every outcome of the whole sweep is merged or failed. -/
lemma sweepNames_status (w : World) :
    ∀ (names : List String) (os : List Outcome),
      sweepNames w names = some os →
      ∀ o ∈ os, o.status = "merged" ∨ o.status = "failed" := by
  intro names
  induction names with
  | nil =>
    intro os h o ho
    simp only [sweepNames, Option.some.injEq] at h
    subst h
    simp at ho
  | cons name rest ih =>
    intro os h o ho
    cases hf : w.fetch (resolveFullName w.username name) with
    | err m =>
      simp only [sweepNames, hf] at h
      exact ih os h o ho
    | ok repo =>
      simp only [sweepNames, hf] at h
      by_cases harch : repo.archived = true
      · rw [if_pos harch] at h
        exact ih os h o ho
      · rw [if_neg harch] at h
        cases hpe : auto_merge_repo_prs repo with
        | none => rw [hpe] at h; exact absurd h (by simp)
        | some os1 =>
          rw [hpe] at h
          cases hsn : sweepNames w rest with
          | none => rw [hsn] at h; exact absurd h (by simp)
          | some os2 =>
            rw [hsn] at h
            simp only [Option.some.injEq] at h
            subst h
            rcases List.mem_append.mp ho with ho1 | ho2
            · exact processEvents_status repo.full_name repo.pulls os1 hpe o ho1
            · exact ih os2 hsn o ho2

/-- A list whose statuses are all merged-or-failed is partitioned by the
two summary counts. -/
lemma count_partition (os : List Outcome)
    (h : ∀ o ∈ os, o.status = "merged" ∨ o.status = "failed") :
    merged_count os + failed_count os = os.length := by
  induction os with
  | nil => rfl
  | cons o os ih =>
    have ho := h o (List.mem_cons_self _ _)
    have ihr := ih fun x hx => h x (List.mem_cons_of_mem _ hx)
    rcases ho with ho | ho <;>
      simp only [merged_count, failed_count, List.filter_cons, ho] at ihr ⊢ <;>
      simp_all <;> omega

/-- C8: every record the sweep collects has status merged or failed, so
the two summary counts partition the outcome list; and in the concrete
run with three eligible and one ineligible PR across two repositories,
all merges succeeding, the merged count is 3 and the failed count 0. -/
theorem outcome_partition :
    (∀ (w : World) (os : List Outcome), sweepAll w = some os →
      (∀ o ∈ os, o.status = "merged" ∨ o.status = "failed") ∧
      merged_count os + failed_count os = os.length) ∧
    sweepAll wC8 = some osC8 ∧
    merged_count osC8 = 3 ∧ failed_count osC8 = 0 ∧ osC8.length = 3 := by
  refine ⟨?_, by decide, by decide, by decide, by decide⟩
  intro w os h
  have hst := sweepNames_status w (load_repositories_config w.config) os h
  exact ⟨hst, count_partition os hst⟩

/-- Witness for C8 at the concrete scenario world. -/
theorem outcome_partition_witness :
    (∀ o ∈ osC8, o.status = "merged" ∨ o.status = "failed") ∧
    merged_count osC8 + failed_count osC8 = osC8.length :=
  outcome_partition.1 wC8 osC8 (by decide)

/-!
Theorems for the claims about the text formatter.
-/

/-- On hyphen-free text the `wordsep_re` scan never finds a split point:
the whole text is one chunk. -/
lemma splitGo_no_hyphen (rest : List Char) : ∀ (acc : List Char),
    (∀ c ∈ rest, c ≠ '-') → splitGo acc rest = [acc.reverse ++ rest] := by
  induction rest with
  | nil => intro acc _; simp [splitGo]
  | cons c r ih =>
    intro acc h
    have hc : (c == '-') = false := by
      simpa using h c (List.mem_cons_self _ _)
    rw [splitGo.eq_def]
    simp only [hc, Bool.false_and, Bool.false_eq_true, if_false]
    rw [ih (c :: acc) fun x hx => h x (List.mem_cons_of_mem _ hx)]
    simp

/-- `_split` of hyphen-free, whitespace-free, non-empty text is the
one-element chunk list. -/
lemma pySplit_no_hyphen (cs : List Char) (hne : cs ≠ [])
    (h : ∀ c ∈ cs, c ≠ '-') : pySplit cs = [cs] := by
  cases cs with
  | nil => exact absurd rfl hne
  | cons c r =>
    rw [pySplit, splitGo_no_hyphen r [c] fun x hx => h x (List.mem_cons_of_mem _ hx)]
    simp

/-- `rfind` of a hyphen in hyphen-free text fails. -/
lemma lastHyphenBefore_none (cs : List Char) (h : ∀ c ∈ cs, c ≠ '-') :
    ∀ (b : Nat), lastHyphenBefore cs b = none := by
  induction cs with
  | nil => intro b; cases b <;> rfl
  | cons c r ih =>
    intro b
    cases b with
    | zero => rfl
    | succ b2 =>
      have hc : (c == '-') = false := by
        simpa using h c (List.mem_cons_self _ _)
      rw [lastHyphenBefore, ih (fun x hx => h x (List.mem_cons_of_mem _ hx)) b2]
      simp [hc]

/-- A non-empty chunk of whitespace-free text does not strip to the empty
string. -/
lemma all_isPySpace_false (cs : List Char) (hne : cs ≠ [])
    (h : ∀ c ∈ cs, isPySpace c = false) : cs.all isPySpace = false := by
  cases cs with
  | nil => exact absurd rfl hne
  | cons c r => simp [List.all_cons, h c (List.mem_cons_self _ _)]

/-- Once the chunk stack is exhausted the wrap loop stops. -/
lemma wrapFill_nil (width f : Nat) (b : Bool) : wrapFill width f [] b = [] := by
  cases f <;> rfl

/-- One wrap iteration on a single chunk that fits: it becomes the line
and the loop proceeds with nothing. -/
lemma wrapFill_succ_fit (n f : Nat) (cs : List Char) (b : Bool)
    (hall : cs.all isPySpace = false) (hfit : cs.length ≤ n) :
    wrapFill n (f + 1) [cs] b = cs :: wrapFill n f [] true := by
  simp [wrapFill, fillLine, hall, hfit]

/-- One wrap iteration on a single too-long hyphen-free chunk: the first
`n` characters become the line and the remainder is pushed back. -/
lemma wrapFill_succ_long (n f : Nat) (cs : List Char) (b : Bool) (hn : 0 < n)
    (hall : cs.all isPySpace = false)
    (htake : (cs.take n).all isPySpace = false)
    (hlong : n < cs.length)
    (hhyph : lastHyphenBefore cs n = none) :
    wrapFill n (f + 1) [cs] b = cs.take n :: wrapFill n f [cs.drop n] true := by
  have hnlt : ¬ n < 1 := by omega
  have hnfit : ¬ cs.length ≤ n := by omega
  simp [wrapFill, fillLine, handleLongWord, hall, htake, hnfit, hnlt, hlong, hhyph]

/-- The equation of `chunkList` on a non-empty list with positive
width. -/
lemma chunkList_cons (n : Nat) (cs : List Char) (hn : 0 < n) (hne : cs ≠ []) :
    chunkList n cs = cs.take n :: chunkList n (cs.drop n) := by
  rw [chunkList]
  rw [dif_neg]
  simp [hne, Nat.pos_iff_ne_zero.mp hn]

/-- `chunkList` of the empty list. -/
lemma chunkList_nil (n : Nat) : chunkList n [] = [] := by
  rw [chunkList]
  rfl

/-- The wrap loop on one whitespace-free hyphen-free chunk is plain
chunking, given enough fuel. -/
lemma wrapFill_single (n : Nat) (hn : 0 < n) :
    ∀ (fuel : Nat) (cs : List Char) (b : Bool),
      cs ≠ [] →
      (∀ c ∈ cs, isPySpace c = false) →
      (∀ c ∈ cs, c ≠ '-') →
      cs.length ≤ fuel →
      wrapFill n fuel [cs] b = chunkList n cs := by
  intro fuel
  induction fuel with
  | zero =>
    intro cs b hne _ _ hlen
    exact absurd (List.length_eq_zero.mp (Nat.le_zero.mp hlen)) hne
  | succ f ih =>
    intro cs b hne hws hhy hlen
    have hall : cs.all isPySpace = false := all_isPySpace_false cs hne hws
    by_cases hfit : cs.length ≤ n
    · rw [wrapFill_succ_fit n f cs b hall hfit, wrapFill_nil,
        chunkList_cons n cs hn hne]
      have hdrop : cs.drop n = [] := List.drop_eq_nil_of_le hfit
      have htake : cs.take n = cs := List.take_of_length_le hfit
      rw [hdrop, htake, chunkList_nil]
    · have hlong : n < cs.length := by omega
      have htne : cs.take n ≠ [] := by
        intro hnil
        have h1 := congrArg List.length hnil
        rw [List.length_take] at h1
        rcases Nat.min_eq_zero_iff.mp h1 with h2 | h2 <;> omega
      have htake : (cs.take n).all isPySpace = false :=
        all_isPySpace_false _ htne fun c hc => hws c (List.take_subset n cs hc)
      rw [wrapFill_succ_long n f cs b hn hall htake hlong
        (lastHyphenBefore_none cs hhy n)]
      have hdne : cs.drop n ≠ [] := by
        intro hnil
        have := congrArg List.length hnil
        simp [List.length_drop] at this
        omega
      rw [ih (cs.drop n) true hdne
        (fun c hc => hws c (List.drop_subset n cs hc))
        (fun c hc => hhy c (List.drop_subset n cs hc))
        (by simp only [List.length_drop]; omega)]
      rw [chunkList_cons n cs hn hne]

/-- `textwrap.wrap` of whitespace-free hyphen-free text is plain
chunking. -/
lemma pyWrap_no_hyphen (s : String) (n : Nat) (hn : 0 < n) (hne : s.data ≠ [])
    (hws : ∀ c ∈ s.data, isPySpace c = false)
    (hhy : ∀ c ∈ s.data, c ≠ '-') :
    pyWrap s n = (chunkList n s.data).map String.mk := by
  rw [pyWrap, pySplit_no_hyphen s.data hne hhy]
  rw [wrapFill_single n hn (chunksMeasure [s.data] + 1) s.data false hne hws hhy
    (by simp [chunksMeasure]; omega)]

/-- The chunks of `chunkList` concatenate back to the input. -/
lemma chunkList_flatten (n : Nat) (hn : 0 < n) :
    ∀ (k : Nat) (cs : List Char), cs.length ≤ k → (chunkList n cs).flatten = cs := by
  intro k
  induction k with
  | zero =>
    intro cs h
    rw [List.length_eq_zero.mp (Nat.le_zero.mp h), chunkList_nil]
    rfl
  | succ k ih =>
    intro cs h
    by_cases hne : cs = []
    · rw [hne, chunkList_nil]; rfl
    · rw [chunkList_cons n cs hn hne, List.flatten_cons,
        ih (cs.drop n) (by simp [List.length_drop]; omega),
        List.take_append_drop]

/-- When the length is a positive multiple of the width, every chunk of
`chunkList` has exactly the width. -/
lemma chunkList_chunk_length (n : Nat) (hn : 0 < n) :
    ∀ (k : Nat) (cs : List Char), cs.length ≤ k → cs.length % n = 0 →
      ∀ l ∈ chunkList n cs, l.length = n := by
  intro k
  induction k with
  | zero =>
    intro cs h _ l hl
    rw [List.length_eq_zero.mp (Nat.le_zero.mp h), chunkList_nil] at hl
    simp at hl
  | succ k ih =>
    intro cs h hmod l hl
    by_cases hne : cs = []
    · rw [hne, chunkList_nil] at hl; simp at hl
    · have hpos : 0 < cs.length := List.length_pos.mpr hne
      have hdvd : n ∣ cs.length := Nat.dvd_of_mod_eq_zero hmod
      have hle : n ≤ cs.length := Nat.le_of_dvd hpos hdvd
      rw [chunkList_cons n cs hn hne] at hl
      rcases List.mem_cons.mp hl with rfl | hl2
      · simp [List.length_take]; omega
      · obtain ⟨q, hq⟩ := hdvd
        have hmod2 : (cs.drop n).length % n = 0 := by
          have hq0 : q ≠ 0 := by
            rintro rfl
            rw [Nat.mul_zero] at hq
            omega
          obtain ⟨q2, rfl⟩ : ∃ q2, q = q2 + 1 := ⟨q - 1, by omega⟩
          have hlen2 : cs.length = n * q2 + n := by rw [hq]; ring
          have hd : (cs.drop n).length = n * q2 := by
            simp only [List.length_drop]
            omega
          rw [hd]
          exact Nat.mul_mod_right n q2
        exact ih (cs.drop n) (by simp only [List.length_drop]; omega) hmod2 l hl2

/-- Folding string concatenation over packed character lists is packing
the flattened list. -/
lemma foldl_append_mk (L : List (List Char)) : ∀ (acc : List Char),
    List.foldl (fun r t => r ++ t) (String.mk acc) (L.map String.mk) =
      String.mk (acc ++ L.flatten) := by
  induction L with
  | nil => intro acc; simp
  | cons l L ih =>
    intro acc
    have hstep : String.mk acc ++ String.mk l = String.mk (acc ++ l) := rfl
    simp only [List.map_cons, List.foldl_cons, hstep, ih, List.flatten_cons,
      List.append_assoc]

/-- `"".join` over packed character lists packs the flattened list. -/
lemma strJoin_map_mk (L : List (List Char)) :
    String.join (L.map String.mk) = String.mk L.flatten := by
  have h0 : ("" : String) = String.mk [] := rfl
  rw [String.join, h0, foldl_append_mk L []]
  rfl

/-- C9 (amended): on a whitespace-free, hyphen-free string whose length
is a positive multiple of `wrap_length`, the formatter returns the
consecutive `wrap_length`-character chunks, in order, concatenating back
to the input. -/
theorem chunking_correct (s : String) (n : Nat)
    (hws : ∀ c ∈ s.data, isPySpace c = false)
    (hhy : ∀ c ∈ s.data, c ≠ '-')
    (hpos : 0 < s.length)
    (hmod : s.length % n = 0) :
    ∃ chunks, format_ebay_item_strs s n = some chunks ∧
      chunks ≠ [] ∧ (∀ c ∈ chunks, c.length = n) ∧ String.join chunks = s := by
  have hn : 0 < n := by
    rcases Nat.eq_zero_or_pos n with h0 | h
    · rw [h0, Nat.mod_zero] at hmod; omega
    · exact h
  have hlen : s.length = s.data.length := rfl
  have hne : s.data ≠ [] := by
    intro hnil
    rw [hlen, hnil] at hpos
    simp at hpos
  refine ⟨(chunkList n s.data).map String.mk, ?_, ?_, ?_, ?_⟩
  · rw [format_ebay_item_strs, if_pos (by simpa using hmod)]
    exact congrArg some (pyWrap_no_hyphen s n hn hne hws hhy)
  · rw [chunkList_cons n s.data hn hne]
    simp
  · intro c hc
    rcases List.mem_map.mp hc with ⟨l, hl, rfl⟩
    exact chunkList_chunk_length n hn s.data.length s.data le_rfl
      (by rw [← hlen]; exact hmod) l hl
  · rw [strJoin_map_mk, chunkList_flatten n hn s.data.length s.data le_rfl]

/-- Witness for C9 (amended) at a concrete digit string. -/
theorem chunking_correct_witness :
    ∃ chunks, format_ebay_item_strs "375719801352375764351126" 12 = some chunks ∧
      chunks ≠ [] ∧ (∀ c ∈ chunks, c.length = 12) ∧
      String.join chunks = "375719801352375764351126" :=
  chunking_correct "375719801352375764351126" 12 (by decide) (by decide)
    (by decide) (by decide)

/-- C9 is false as stated: the whitespace-free input `"abc-de-fg"` has
length 9, a positive multiple of 3, yet `textwrap.wrap` breaks it after
hyphens of hyphenated words, so the chunks are not all of length 3 and
are not the consecutive 3-character pieces. -/
theorem chunking_correct_counterexample :
    (∀ c ∈ ("abc-de-fg" : String).data, isPySpace c = false) ∧
    ("abc-de-fg" : String).length % 3 = 0 ∧
    0 < ("abc-de-fg" : String).length ∧
    format_ebay_item_strs "abc-de-fg" 3 = some ["abc", "-", "de-", "fg"] ∧
    ¬ (∀ c ∈ ["abc", "-", "de-", "fg"], String.length c = 3) := by decide

/-- C10: when the input length is not a multiple of a positive
`wrap_length`, the function returns Python's implicit `None`. -/
theorem non_multiple_returns_none (s : String) (n : Nat) (_hn : 0 < n)
    (h : s.length % n ≠ 0) :
    format_ebay_item_strs s n = none := by
  rw [format_ebay_item_strs, if_neg]
  simpa using h

/-- Witness for C10 at a concrete input of length 5 with width 2. -/
theorem non_multiple_returns_none_witness :
    format_ebay_item_strs "abcde" 2 = none :=
  non_multiple_returns_none "abcde" 2 (by decide) (by decide)
